import Mathlib

/-!
# Marchapi: the request handlers of `src/index.js`

A shallow embedding of the blogging backend.  Every route handler of
`src/index.js` is a pure function from the state of the two stores (and the
request) to the new state and the response.

The handlers call third-party libraries.  They are not part of the
repository, so they enter the development as parameters:

* `Jwt` stands for `jsonwebtoken` (`jwt.sign`, `jwt.verify`),
* `Bcrypt` stands for `bcryptjs` (`bcrypt.hashSync`, `bcrypt.compareSync`),
* `Mongoose` records the one point on which versions of `mongoose` differ for
  these handlers (a filter key whose value is `undefined`).

The Mongoose models `User` and `Post` (files `models/User.js` and
`models/Post.js`, which the handlers require) are modelled from the
specification as lists of documents in insertion order.

Where a theorem needs a documented property of a library it takes that
property as an explicit hypothesis (`JwtContract`, `BcryptContract`).

Conventions of the embedding:

* a cookie or body field is an optional string: `none` is JavaScript `undefined`;
* identifiers are ObjectId values, carried as their hex strings; the failure to cast a
  malformed identifier is not modelled;
* reads of a store succeed; a write may be refused (`Env.writeOk`);
* `fs.renameSync` succeeds and is recorded in the state;
* a handler that throws outside every `try` sends no response (`Result.response = none`).
-/

namespace Marchapi

/-! ## Data model -/

/-- Identifier of a stored document: a Mongo ObjectId, carried as its hex string. -/
abbrev Id := String

/-- JSON values that occur in a token payload: strings and numbers. -/
inductive JsVal where
  | str (s : String)
  | num (n : Int)
  deriving DecidableEq, Repr

/-- Token payload (the claims): a JSON object, as its list of key/value pairs in key order
(the keys are distinct). -/
abbrev Payload := List (String × JsVal)

/-- Modelled from the spec: the User model of `models/User.js`: an identifier generated at
creation, a username and the stored password field. -/
structure User where
  id : Id
  username : String
  password : String
  deriving DecidableEq, Repr

/-- Modelled from the spec: the Post model of `models/Post.js`: an identifier and a creation time
generated at creation, free-form optional text fields, an optional cover path and the author
reference. -/
structure Post where
  id : Id
  title : Option String
  summary : Option String
  content : Option String
  cover : Option String
  author : Id
  createdAt : Nat
  deriving DecidableEq, Repr

/-- A post whose author reference has been resolved by `populate('author', ['username'])`:
the author is replaced by its identifier and username, or by null when no such user exists. -/
structure PopulatedPost where
  id : Id
  title : Option String
  summary : Option String
  content : Option String
  cover : Option String
  author : Option (Id × String)
  createdAt : Nat
  deriving DecidableEq, Repr

/-- The `req.file` object written by the upload middleware (`uploadMiddleware.single('file')`):
the file name sent by the client and the temporary path of the stored file. -/
structure UploadedFile where
  originalname : String
  path : String
  deriving DecidableEq, Repr

/-- An inbound request: the `token` cookie, the body fields the handlers read, the route
parameter of `GET /post/:id` and the uploaded file.  A field that the request omits is `none`
(JavaScript `undefined`). -/
structure Request where
  token : Option String := none
  username : Option String := none
  password : Option String := none
  id : Option String := none
  title : Option String := none
  summary : Option String := none
  content : Option String := none
  file : Option UploadedFile := none
  paramId : Option String := none
  deriving DecidableEq, Repr

/-- Response bodies sent by the handlers. -/
inductive Body where
  /-- Body of `res.json('some text')` -/
  | text (s : String)
  /-- Body of `res.json({ error: s })` -/
  | errorObj (s : String)
  /-- Body of `res.json({ message: s })` -/
  | messageObj (s : String)
  /-- Body of `res.json(userDoc)` -/
  | userDoc (u : User)
  /-- Body of `res.json({ id, username })`; an undefined username is left out -/
  | loginInfo (id : Id) (username : Option String)
  /-- Body of `res.json(info)`: the decoded token payload -/
  | claims (info : Payload)
  /-- Body of `res.json({ postDoc })` -/
  | postDoc (p : Post)
  /-- Body of `res.json(updatedPost)`: a post, or null -/
  | post (p : Option Post)
  /-- Body of `res.json(populatedPost)`: a populated post, or null -/
  | populated (p : Option PopulatedPost)
  /-- Body of `res.json([...])`: the post listing -/
  | postList (ps : List PopulatedPost)
  deriving DecidableEq, Repr

/-- An HTTP response: status code, JSON body and the value of the `token` cookie when the
handler calls `res.cookie('token', value)`. -/
structure Response where
  status : Nat
  body : Body
  cookie : Option String := none
  deriving DecidableEq, Repr

/-- State of the system between requests: the Credential Store, the Content Store and the
renames performed in the upload directory (`fs.renameSync`), oldest first. -/
structure World where
  users : List User := []
  posts : List Post := []
  renames : List (String × String) := []
  deriving DecidableEq, Repr

/-- What a handler leaves behind: the new state and the response.  The response is `none` when
the handler throws outside every `try` (an error thrown inside a callback, or a rejected
promise of an `async` callback): no response is sent. -/
structure Result where
  world : World
  response : Option Response
  deriving DecidableEq, Repr

/-- Process-wide configuration computed at start-up: `secret` and `salt`. -/
structure Config where
  secret : String
  salt : String
  deriving DecidableEq, Repr

/-- What the environment supplies to one request: the reading of the clock, the identifier the
store generates for a created document, and whether a store write is accepted. -/
structure Env where
  now : Nat
  freshId : Id
  writeOk : Bool := true
  deriving DecidableEq, Repr

/-! ## Third-party libraries -/

/-- Error object passed to a `jsonwebtoken` callback; the handlers read its `name`. -/
structure JwtError where
  name : String
  deriving DecidableEq, Repr

/-- The `jsonwebtoken` library: `sign payload secret now` and `verify token secret now`, both
called with the empty options object by every handler.  The clock is explicit. -/
structure Jwt where
  sign : Payload → String → Nat → Except JwtError String
  verify : String → String → Nat → Except JwtError Payload

/-- The `bcryptjs` library: `hashSync password salt` and `compareSync password hash`. -/
structure Bcrypt where
  hashSync : String → String → String
  compareSync : String → String → Bool

/-- The `mongoose` library, as far as its versions differ on what the handlers rely on:
whether a filter key whose value is `undefined` is dropped from the filter, so that the filter
matches every document, or is kept and matches no document with a value at that key. -/
structure Mongoose where
  dropsUndefinedFilter : Bool

/-- The object `{ username, id: userDoc._id }` as it is serialised into a token or a response:
a key whose value is `undefined` is left out. -/
def signedPayload (username : Option String) (id : String) : Payload :=
  match username with
  | some u => [("username", JsVal.str u), ("id", JsVal.str id)]
  | none => [("id", JsVal.str id)]

/-- The payload that `POST /login` signs for a request that names a username. -/
def loginPayload (username id : String) : Payload :=
  signedPayload (some username) id

/-- The payload that `jsonwebtoken` returns for a token signed by `POST /login` at time `now`:
the signed payload followed by the issued-at claim. -/
def stampedPayload (username id : String) (now : Nat) : Payload :=
  [("username", JsVal.str username), ("id", JsVal.str id), ("iat", JsVal.num (Int.ofNat now))]

/-- Documented behaviour of `jsonwebtoken` for the payload that `POST /login` signs, an object
that carries none of the registered claims: `sign` with empty options stamps the payload with
the issued-at claim `iat` (the option `noTimestamp` is not set), `verify` with the signing
secret returns the stamped payload, whatever the time (no expiry was set), and no token is the
empty string. -/
def JwtContract (jwt : Jwt) : Prop :=
  ∀ (username id secret : String) (now later : Nat) (token : String),
    jwt.sign (loginPayload username id) secret now = Except.ok token →
      token ≠ "" ∧ jwt.verify token secret later = Except.ok (stampedPayload username id now)

/-- Contract of `bcryptjs` for one salt: comparing a password with the hash computed from it
succeeds, and the hash string is not the password itself. -/
def BcryptContract (bc : Bcrypt) (salt : String) : Prop :=
  ∀ password : String,
    bc.compareSync password (bc.hashSync password salt) = true ∧
    bc.hashSync password salt ≠ password

/-! ## JavaScript helpers used by the handlers -/

/-- The double quote character. -/
def dquote : Char := Char.ofNat 34

/-- The reverse solidus character. -/
def rsolidus : Char := Char.ofNat 92

/-- Lower-case hexadecimal digit of a number below sixteen. -/
def hexDigit (n : Nat) : Char :=
  if n < 10 then Char.ofNat (48 + n) else Char.ofNat (87 + n)

/-- One character of `JSON.stringify` applied to a string (ECMAScript QuoteJSONString): the
quote and the reverse solidus are escaped, control characters get their short escape or a
four-digit hexadecimal escape, every other character stands for itself. -/
def escapeChar (c : Char) : List Char :=
  if c = dquote then [rsolidus, dquote]
  else if c = rsolidus then [rsolidus, rsolidus]
  else if c = Char.ofNat 8 then [rsolidus, 'b']
  else if c = Char.ofNat 9 then [rsolidus, 't']
  else if c = Char.ofNat 10 then [rsolidus, 'n']
  else if c = Char.ofNat 12 then [rsolidus, 'f']
  else if c = Char.ofNat 13 then [rsolidus, 'r']
  else if c.toNat < 32 then
    [rsolidus, 'u', '0', '0', hexDigit (c.toNat / 16), hexDigit (c.toNat % 16)]
  else [c]

/-- All characters of a string, escaped. -/
def escapeChars : List Char → List Char
  | [] => []
  | c :: cs => escapeChar c ++ escapeChars cs

/-- `JSON.stringify(s)` for a string `s`; also `JSON.stringify(oid)` for an ObjectId, whose
`toJSON` is its hex string. -/
def quoteJSONString (s : String) : String :=
  String.mk (dquote :: (escapeChars s.data ++ [dquote]))

/-- `JSON.stringify(v)` for a payload value or `undefined` (`none`); the result of
stringifying `undefined` is `undefined`. -/
def jsonStringify : Option JsVal → Option String
  | none => none
  | some (JsVal.str s) => some (quoteJSONString s)
  | some (JsVal.num n) => some (toString n)

/-- `originalname.split('.')` on the characters of the name: the segments between dots. -/
def splitDot : List Char → List (List Char)
  | [] => [[]]
  | c :: cs =>
    if c = '.' then [] :: splitDot cs
    else
      match splitDot cs with
      | [] => [[c]]
      | seg :: segs => (c :: seg) :: segs

/-- `parts[parts.length - 1]` for `parts = originalname.split('.')`: the extension. -/
def extension (originalname : String) : String :=
  String.mk ((splitDot originalname.data).getLastD [])

/-- `path + '.' + ext` for an uploaded file. -/
def renamedPath (file : UploadedFile) : String :=
  file.path ++ "." ++ extension file.originalname

/-- `fs.renameSync(oldPath, newPath)`. -/
def renameSync (w : World) (oldPath newPath : String) : World :=
  { w with renames := w.renames ++ [(oldPath, newPath)] }

/-- Property read `info.id` on a decoded payload (`none` is `undefined`). -/
def Payload.get (info : Payload) (key : String) : Option JsVal :=
  (info.find? (fun kv => kv.1 = key)).map Prod.snd

/-! ## Store operations -/

/-- Modelled from the spec: `User.create` persists a new User with a generated identifier;
no check for an existing username is made.  The write may be refused by the store. -/
def User.create (env : Env) (w : World) (username password : String) : Option (User × World) :=
  if env.writeOk then
    let userDoc : User := { id := env.freshId, username := username, password := password }
    some (userDoc, { w with users := w.users ++ [userDoc] })
  else none

/-- Whether a stored value satisfies the filter `{ key: wanted }`. -/
def filterMatches (db : Mongoose) (wanted : Option String) (stored : String) : Bool :=
  match wanted with
  | some v => stored = v
  | none => db.dropsUndefinedFilter

/-- Modelled from the spec: `User.findOne({ username })`: the first stored user that the
filter matches. -/
def User.findOne (db : Mongoose) (w : World) (username : Option String) : Option User :=
  w.users.find? (fun u => filterMatches db username u.username)

/-- Modelled from the spec: `Post.create` persists a new Post with a generated identifier and
creation time.  The author has to be an identifier string; the write may be refused. -/
def Post.create (env : Env) (w : World) (title summary content cover : Option String)
    (author : Option JsVal) : Option (Post × World) :=
  match author with
  | some (JsVal.str a) =>
    if env.writeOk then
      let postDoc : Post :=
        { id := env.freshId, title := title, summary := summary, content := content,
          cover := cover, author := a, createdAt := env.now }
      some (postDoc, { w with posts := w.posts ++ [postDoc] })
    else none
  | _ => none

/-- Modelled from the spec: `Post.findById(id)`: the first stored post with that identifier;
an undefined identifier is looked up as null and finds nothing. -/
def Post.findById (w : World) (id : Option String) : Option Post :=
  w.posts.find? (fun p => some p.id = id)

/-- One field of a `$set` update: a key whose value is `undefined` is dropped from the update,
so the stored value stays. -/
def setField (supplied stored : Option String) : Option String :=
  match supplied with
  | some v => some v
  | none => stored

/-- The update document `{ $set: { title, summary, content, cover } }` applied to a post. -/
def applySet (title summary content cover : Option String) (p : Post) : Post :=
  { p with
    title := setField title p.title
    summary := setField summary p.summary
    content := setField content p.content
    cover := setField cover p.cover }

/-- Replace the first post that the selector accepts. -/
def updateFirst (sel : Post → Bool) (f : Post → Post) : List Post → List Post
  | [] => []
  | p :: ps => if sel p then f p :: ps else p :: updateFirst sel f ps

/-- Modelled from the spec: `Post.updateOne({ _id: id }, { $set: {...} })`: updates the first
post that the filter matches, in place.  The write may be refused. -/
def Post.updateOne (db : Mongoose) (env : Env) (w : World) (id : Option String)
    (title summary content cover : Option String) : Option World :=
  if env.writeOk then
    some { w with
           posts := updateFirst (fun p => filterMatches db id p.id)
             (applySet title summary content cover) w.posts }
  else none

/-- The `populate('author', ['username'])` step on one post. -/
def populate (w : World) (p : Post) : PopulatedPost :=
  { id := p.id, title := p.title, summary := p.summary, content := p.content, cover := p.cover,
    author := (w.users.find? (fun u => u.id = p.author)).map (fun u => (u.id, u.username)),
    createdAt := p.createdAt }

/-- The order of `sort({ createdAt: -1 })`: newest first. -/
def newerFirst (a b : Post) : Prop := b.createdAt ≤ a.createdAt

instance : DecidableRel newerFirst := fun a b => Nat.decLe b.createdAt a.createdAt

instance : IsTotal Post newerFirst := ⟨fun a b => Nat.le_total b.createdAt a.createdAt⟩

instance : IsTrans Post newerFirst := ⟨fun _ _ _ hab hbc => Nat.le_trans hbc hab⟩

/-- Modelled from the spec: `Post.find().sort({ createdAt: -1 }).limit(20)`. -/
def Post.findSortedLimit (w : World) : List Post :=
  (w.posts.insertionSort newerFirst).take 20

/-! ## Route handlers -/

/-- `jwt.verify(token, secret, {}, callback)` on the `token` cookie of a request; a missing
cookie is reported by the library as a `JsonWebTokenError`. -/
def verifyCookie (jwt : Jwt) (cfg : Config) (env : Env) (token : Option String) :
    Except JwtError Payload :=
  match token with
  | none => Except.error { name := "JsonWebTokenError" }
  | some t => jwt.verify t cfg.secret env.now

/-- The response of the `catch` block of `POST /register`. -/
def registerFailed : Response :=
  { status := 400, body := Body.errorObj "Failed to register user" }

/-- `app.post('/register')`. -/
def postRegister (bc : Bcrypt) (cfg : Config) (env : Env) (w : World) (req : Request) : Result :=
  match req.username, req.password with
  | some username, some password =>
    if username = "" ∨ password = "" then { world := w, response := some registerFailed }
    else
      let hashedPassword := bc.hashSync password cfg.salt
      match User.create env w username hashedPassword with
      | some (userDoc, w1) =>
        { world := w1, response := some { status := 200, body := Body.userDoc userDoc } }
      | none => { world := w, response := some registerFailed }
  | _, _ => { world := w, response := some registerFailed }

/-- `app.post('/login')`. -/
def postLogin (jwt : Jwt) (bc : Bcrypt) (db : Mongoose) (cfg : Config) (env : Env) (w : World)
    (req : Request) : Result :=
  match User.findOne db w req.username with
  | none =>
    { world := w, response := some { status := 400, body := Body.text "User not found" } }
  | some userDoc =>
    match req.password with
    | none =>
      -- compareSync throws on a missing password; the catch block answers
      { world := w, response := some { status := 500, body := Body.text "Internal Server Error" } }
    | some password =>
      if bc.compareSync password userDoc.password then
        match jwt.sign (signedPayload req.username userDoc.id) cfg.secret env.now with
        | Except.error _ => { world := w, response := none }
        | Except.ok token =>
          { world := w,
            response := some { status := 200, body := Body.loginInfo userDoc.id req.username,
                               cookie := some token } }
      else
        { world := w, response := some { status := 400, body := Body.text "Incorrect password" } }

/-- `app.get('/profile')`. -/
def getProfile (jwt : Jwt) (cfg : Config) (env : Env) (w : World) (req : Request) : Result :=
  match req.token with
  | none =>
    { world := w,
      response := some { status := 401, body := Body.messageObj "Unauthorized: Token missing" } }
  | some token =>
    if token = "" then
      { world := w,
        response := some { status := 401, body := Body.messageObj "Unauthorized: Token missing" } }
    else
      match jwt.verify token cfg.secret env.now with
      | Except.error err =>
        if err.name = "JsonWebTokenError" then
          { world := w,
            response := some { status := 401,
                               body := Body.messageObj "Unauthorized: Invalid token" } }
        else
          { world := w,
            response := some { status := 500, body := Body.messageObj "Internal Server Error" } }
      | Except.ok info =>
        { world := w, response := some { status := 200, body := Body.claims info } }

/-- `app.post('/logout')`. -/
def postLogout (w : World) : Result :=
  { world := w, response := some { status := 200, body := Body.text "ok", cookie := some "" } }

/-- The response of `POST /post` when no file name is present. -/
def fileMissing : Response :=
  { status := 400, body := Body.errorObj "File or originalname is missing" }

/-- `app.post('/post')`. -/
def postPost (jwt : Jwt) (cfg : Config) (env : Env) (w : World) (req : Request) : Result :=
  match req.file with
  | none => { world := w, response := some fileMissing }
  | some file =>
    if file.originalname = "" then { world := w, response := some fileMissing }
    else
      let newPath := renamedPath file
      let w1 := renameSync w file.path newPath
      match verifyCookie jwt cfg env req.token with
      | Except.error _ => { world := w1, response := none }
      | Except.ok info =>
        match Post.create env w1 req.title req.summary req.content (some newPath)
            (info.get "id") with
        | none => { world := w1, response := none }
        | some (postDoc, w2) =>
          { world := w2, response := some { status := 200, body := Body.postDoc postDoc } }

/-- The value of `newPath` in `PUT /post`: null without a file, the renamed path with one. -/
def putNewPath (req : Request) : Option String :=
  match req.file with
  | some file => some (renamedPath file)
  | none => none

/-- The rename performed by `PUT /post` when a file was uploaded. -/
def putRename (w : World) (req : Request) : World :=
  match req.file with
  | some file => renameSync w file.path (renamedPath file)
  | none => w

/-- `newPath ? newPath : postDoc.cover`: null and the empty string are falsy. -/
def coverChoice (newPath : Option String) (stored : Option String) : Option String :=
  match newPath with
  | some p => if p = "" then stored else some p
  | none => stored

/-- `app.put('/post')`. -/
def putPost (jwt : Jwt) (db : Mongoose) (cfg : Config) (env : Env) (w : World)
    (req : Request) : Result :=
  let newPath := putNewPath req
  let w1 := putRename w req
  match verifyCookie jwt cfg env req.token with
  | Except.error _ => { world := w1, response := none }
  | Except.ok info =>
    match Post.findById w1 req.id with
    | none => { world := w1, response := some { status := 404, body := Body.text "Post not found" } }
    | some postDoc =>
      let isAuthor : Bool :=
        decide (some (quoteJSONString postDoc.author) = jsonStringify (info.get "id"))
      if !isAuthor then
        { world := w1,
          response := some { status := 400, body := Body.text "You are not the author" } }
      else
        match Post.updateOne db env w1 req.id req.title req.summary req.content
            (coverChoice newPath postDoc.cover) with
        | none => { world := w1, response := none }
        | some w2 =>
          { world := w2,
            response := some { status := 200, body := Body.post (Post.findById w2 req.id) } }

/-- `app.get('/post')`. -/
def getPost (w : World) : Result :=
  { world := w,
    response := some { status := 200,
                       body := Body.postList ((Post.findSortedLimit w).map (populate w)) } }

/-- `app.get('/post/:id')`. -/
def getPostById (w : World) (req : Request) : Result :=
  { world := w,
    response := some { status := 200,
                       body := Body.populated ((Post.findById w req.paramId).map (populate w)) } }

/-! ## Decoding the first character of a quoted text -/

/-- Value of a lower-case hexadecimal digit. -/
def hexValue (c : Char) : Nat :=
  if c.toNat < 58 then c.toNat - 48 else c.toNat - 87

/-- The character an escape sequence stands for, given the characters after the reverse
solidus, and the number of characters the sequence takes after the reverse solidus. -/
def unescapeOne : List Char → Char × Nat
  | [] => (rsolidus, 0)
  | e :: rest =>
    if e = 'b' then (Char.ofNat 8, 1)
    else if e = 't' then (Char.ofNat 9, 1)
    else if e = 'n' then (Char.ofNat 10, 1)
    else if e = 'f' then (Char.ofNat 12, 1)
    else if e = 'r' then (Char.ofNat 13, 1)
    else if e = 'u' then
      (Char.ofNat (16 * hexValue (rest.getD 2 '0') + hexValue (rest.getD 3 '0')), 5)
    else (e, 1)

/-- First character that a quoted text stands for. -/
def firstUnescaped : List Char → Option Char
  | [] => none
  | c :: rest => if c = rsolidus then some (unescapeOne rest).1 else some c

/-! ## Stand-ins for the libraries and sample states

The theorems below hold for every `Jwt` and `Bcrypt`.  To show that their hypotheses can be
met, they are instantiated on the small stand-ins of this section. -/

/-- A stand-in for `jsonwebtoken` that knows three tokens: it signs the payload of alice
(identifier `a1`) with secret `k` at time 1000 as `tok-alice`, accepts that token and the token
`tok-bob` of bob (identifier `b2`), reports `tok-old` as expired and rejects every other token
as malformed.  As the library does, it stamps what it signs with `iat`. -/
def demoJwt : Jwt where
  sign := fun payload secret now =>
    if payload = loginPayload "alice" "a1" ∧ secret = "k" ∧ now = 1000 then
      Except.ok "tok-alice"
    else Except.error { name := "Error" }
  verify := fun token secret _ =>
    if token = "tok-alice" ∧ secret = "k" then Except.ok (stampedPayload "alice" "a1" 1000)
    else if token = "tok-bob" ∧ secret = "k" then Except.ok (stampedPayload "bob" "b2" 1000)
    else if token = "tok-old" ∧ secret = "k" then Except.error { name := "TokenExpiredError" }
    else Except.error { name := "JsonWebTokenError" }

/-- A stand-in for `bcryptjs`: the hash is the password behind a fixed marker (the salt is
ignored), and comparison recomputes it.  It is not one-way; it only meets `BcryptContract`. -/
def demoBcrypt : Bcrypt where
  hashSync := fun password _ => "$2a$" ++ password
  compareSync := fun password hash => decide (hash = "$2a$" ++ password)

/-- A library version that drops undefined filter keys. -/
def demoDb : Mongoose := { dropsUndefinedFilter := true }

/-- Sample configuration. -/
def demoConfig : Config := { secret := "k", salt := "$2a$10$salt" }

/-- Sample environment of one request. -/
def demoEnv : Env := { now := 1000, freshId := "n9" }

/-- Sample user alice, registered with password `pw1` under `demoBcrypt`. -/
def alice : User := { id := "a1", username := "alice", password := "$2a$pw1" }

/-- Sample user bob, registered with password `pw2` under `demoBcrypt`. -/
def bob : User := { id := "b2", username := "bob", password := "$2a$pw2" }

/-- Sample post written by alice. -/
def alicePost : Post :=
  { id := "p1", title := some "T", summary := some "S", content := some "C",
    cover := some "uploads/f1.png", author := "a1", createdAt := 500 }

/-- Sample state: two users and one post of alice. -/
def demoWorld : World := { users := [alice, bob], posts := [alicePost] }

/-- Sample state with three posts stored oldest, newest, middle; the author of the last one is
not a stored user. -/
def threePosts : World :=
  { users := [alice],
    posts := [{ alicePost with id := "p1", createdAt := 100 },
              { alicePost with id := "p2", createdAt := 300 },
              { alicePost with id := "p3", createdAt := 200, author := "zz" }] }

/-- Sample request: alice logs in with her password. -/
def aliceLogin : Request := { username := some "alice", password := some "pw1" }

/-- Sample request: a login as alice with a wrong password. -/
def aliceWrong : Request := { username := some "alice", password := some "guess" }

/-- Sample request: the token issued to alice is presented to `GET /profile`. -/
def aliceProfile : Request := { token := some "tok-alice" }

/-- Sample request: bob tries to update the post of alice, with a new title and a file. -/
def bobEdit : Request :=
  { token := some "tok-bob", id := some "p1", title := some "hacked",
    file := some { originalname := "x.gif", path := "uploads/t7" } }

/-- Sample request: alice creates a post with the file `img.png`; the body also carries an
`id` field naming bob. -/
def aliceCreate : Request :=
  { token := some "tok-alice", id := some "b2", title := some "T",
    file := some { originalname := "img.png", path := "uploads/t1" } }

/-- The post that `aliceCreate` creates in `demoEnv`. -/
def aliceCreated : Post :=
  { id := "n9", title := some "T", summary := none, content := none,
    cover := some "uploads/t1.png", author := "a1", createdAt := 1000 }

/-- Sample request: alice replaces the title of her post; no summary, content or file. -/
def aliceEdit : Request := { token := some "tok-alice", id := some "p1", title := some "T2" }

/-- The post of alice after `aliceEdit`. -/
def aliceEdited : Post := { alicePost with title := some "T2" }

/-- Sample request: carol, a new user, registers. -/
def carolRegister : Request := { username := some "carol", password := some "pw3" }

/-- Sample request: somebody registers the username alice again, with another password, and
then logs in with it. -/
def aliceAgain : Request := { username := some "alice", password := some "pw3" }

/-! ## JSON string quoting is injective -/

theorem hexValue_hexDigit : ∀ n, n < 16 → hexValue (hexDigit n) = n := by
  decide

theorem firstUnescaped_escapeChar (c : Char) (r : List Char) :
    firstUnescaped (escapeChar c ++ r) = some c := by
  unfold escapeChar
  split_ifs with h1 h2 h3 h4 h5 h6 h7 h8
  · subst h1; rfl
  · subst h2; rfl
  · subst h3; rfl
  · subst h4; rfl
  · subst h5; rfl
  · subst h6; rfl
  · subst h7; rfl
  · have ha : c.toNat / 16 < 16 := by omega
    have hb : c.toNat % 16 < 16 := by omega
    have hstep : firstUnescaped
        ([rsolidus, 'u', '0', '0', hexDigit (c.toNat / 16), hexDigit (c.toNat % 16)] ++ r)
        = some (Char.ofNat (16 * hexValue (hexDigit (c.toNat / 16))
            + hexValue (hexDigit (c.toNat % 16)))) := rfl
    rw [hstep, hexValue_hexDigit _ ha, hexValue_hexDigit _ hb, Nat.div_add_mod]
    simp
  · simp [firstUnescaped, h2]

theorem escapeChar_append_inj (c d : Char) (r1 r2 : List Char)
    (h : escapeChar c ++ r1 = escapeChar d ++ r2) : c = d ∧ r1 = r2 := by
  have h1 := firstUnescaped_escapeChar c r1
  have h2 := firstUnescaped_escapeChar d r2
  rw [h, h2] at h1
  have hcd : c = d := (Option.some.inj h1).symm
  subst hcd
  exact ⟨rfl, List.append_cancel_left h⟩

theorem escapeChars_inj : ∀ s t : List Char, escapeChars s = escapeChars t → s = t
  | [], [] => fun _ => rfl
  | [], d :: t => fun h => by
    simp only [escapeChars] at h
    have hfirst := congrArg firstUnescaped h
    rw [firstUnescaped_escapeChar] at hfirst
    simp [firstUnescaped] at hfirst
  | c :: s, [] => fun h => by
    simp only [escapeChars] at h
    have hfirst := congrArg firstUnescaped h
    rw [firstUnescaped_escapeChar] at hfirst
    simp [firstUnescaped] at hfirst
  | c :: s, d :: t => fun h => by
    simp only [escapeChars] at h
    obtain ⟨hcd, hr⟩ := escapeChar_append_inj c d _ _ h
    rw [hcd, escapeChars_inj s t hr]

theorem quoteJSONString_inj (a b : String) (h : quoteJSONString a = quoteJSONString b) :
    a = b := by
  unfold quoteJSONString at h
  have h1 : dquote :: (escapeChars a.data ++ [dquote])
      = dquote :: (escapeChars b.data ++ [dquote]) := congrArg String.data h
  have h2 := List.append_cancel_right (List.cons.inj h1).2
  exact String.ext (escapeChars_inj _ _ h2)

/-! ## Frame lemmas of the store operations -/

theorem findById_none (w : World) : Post.findById w none = none := by
  unfold Post.findById
  induction w.posts with
  | nil => rfl
  | cons p ps ih => simp [List.find?, ih]

theorem putRename_posts (w : World) (req : Request) : (putRename w req).posts = w.posts := by
  unfold putRename
  cases req.file <;> rfl

theorem putRename_users (w : World) (req : Request) : (putRename w req).users = w.users := by
  unfold putRename
  cases req.file <;> rfl

theorem findById_putRename (w : World) (req : Request) (id : Option String) :
    Post.findById (putRename w req) id = Post.findById w id := by
  unfold Post.findById
  rw [putRename_posts]

theorem findOne_some (db : Mongoose) (w : World) (name : String) (userDoc : User)
    (h : User.findOne db w (some name) = some userDoc) :
    userDoc ∈ w.users ∧ userDoc.username = name := by
  unfold User.findOne at h
  refine ⟨List.mem_of_find?_eq_some h, ?_⟩
  have hp := List.find?_some h
  simpa [filterMatches] using hp

theorem findOne_eq_none (db : Mongoose) (w : World) (name : String)
    (h : ∀ u ∈ w.users, u.username ≠ name) : User.findOne db w (some name) = none := by
  unfold User.findOne
  rw [List.find?_eq_none]
  intro u hu
  simpa [filterMatches] using h u hu

theorem findOne_of_mem (db : Mongoose) (w : World) (name : String)
    (h : ∃ u ∈ w.users, u.username = name) :
    ∃ userDoc, User.findOne db w (some name) = some userDoc := by
  rcases hfind : User.findOne db w (some name) with _ | userDoc
  · obtain ⟨u, hu, hname⟩ := h
    unfold User.findOne at hfind
    rw [List.find?_eq_none] at hfind
    have hno := hfind u hu
    simp [filterMatches, hname] at hno
  · exact ⟨userDoc, rfl⟩

/-! ## GET /profile -/

/-- C10: for every `GET /profile` request, an absent or empty token cookie is answered with
status 401; a present token that the library rejects with a `JsonWebTokenError` (bad signature
or format) is answered with status 401; a verification failure of any other name is answered
with status 500; and the response is status 200 exactly when the token is present and
verifies, in which case the body is the decoded claims. -/
theorem getProfile_status (jwt : Jwt) (cfg : Config) (env : Env) (w : World) (req : Request) :
    ((req.token = none ∨ req.token = some "") →
      (getProfile jwt cfg env w req).response =
        some { status := 401, body := Body.messageObj "Unauthorized: Token missing" }) ∧
    (∀ t err, req.token = some t → t ≠ "" →
      jwt.verify t cfg.secret env.now = Except.error err → err.name = "JsonWebTokenError" →
      (getProfile jwt cfg env w req).response =
        some { status := 401, body := Body.messageObj "Unauthorized: Invalid token" }) ∧
    (∀ t err, req.token = some t → t ≠ "" →
      jwt.verify t cfg.secret env.now = Except.error err → err.name ≠ "JsonWebTokenError" →
      (getProfile jwt cfg env w req).response =
        some { status := 500, body := Body.messageObj "Internal Server Error" }) ∧
    (∀ r, (getProfile jwt cfg env w req).response = some r →
      (r.status = 200 ↔
        ∃ t info, req.token = some t ∧ t ≠ "" ∧
          jwt.verify t cfg.secret env.now = Except.ok info)) ∧
    (∀ t info, req.token = some t → t ≠ "" →
      jwt.verify t cfg.secret env.now = Except.ok info →
      (getProfile jwt cfg env w req).response =
        some { status := 200, body := Body.claims info }) ∧
    (getProfile jwt cfg env w req).response ≠ none ∧
    (getProfile jwt cfg env w req).world = w := by
  rcases htok : req.token with _ | t
  · have hres : getProfile jwt cfg env w req =
          Result.mk w (some { status := 401, body := Body.messageObj "Unauthorized: Token missing" }) := by
      unfold getProfile; simp [htok]
    rw [hres]
    simp
  · by_cases hempty : t = ""
    · have hres : getProfile jwt cfg env w req =
          Result.mk w (some { status := 401, body := Body.messageObj "Unauthorized: Token missing" }) := by
        unfold getProfile; simp [htok, hempty]
      rw [hres]
      subst hempty
      simp
      all_goals (repeat' constructor)
      all_goals (intros; subst_vars; simp_all)
    · have hnot : ¬ (some t = none ∨ some t = some "") := by simp [hempty]
      rcases hver : jwt.verify t cfg.secret env.now with err | info
      · by_cases hname : err.name = "JsonWebTokenError"
        · have hres : getProfile jwt cfg env w req =
          Result.mk w (some { status := 401, body := Body.messageObj "Unauthorized: Invalid token" }) := by
            unfold getProfile; simp [htok, hempty, hver, hname]
          rw [hres]
          simp [hempty, hver, hname]
          all_goals (repeat' constructor)
          all_goals (intros; subst_vars; simp_all)
        · have hres : getProfile jwt cfg env w req =
          Result.mk w (some { status := 500, body := Body.messageObj "Internal Server Error" }) := by
            unfold getProfile; simp [htok, hempty, hver, hname]
          rw [hres]
          simp [hempty, hver, hname]
          all_goals (repeat' constructor)
          all_goals (intros; subst_vars; simp_all)
      · have hres : getProfile jwt cfg env w req =
          Result.mk w (some { status := 200, body := Body.claims info }) := by
          unfold getProfile; simp [htok, hempty, hver]
        rw [hres]
        simp [hempty, hver]
        all_goals (repeat' constructor)
        all_goals (intros; subst_vars; simp_all)

/-- Witness of C10: an expired token (`tok-old`), which the library rejects with an error that
is not a `JsonWebTokenError`, is answered with status 500. -/
theorem getProfile_status_witness :
    (getProfile demoJwt demoConfig demoEnv demoWorld { token := some "tok-old" }).response =
      some { status := 500, body := Body.messageObj "Internal Server Error" } :=
  (getProfile_status demoJwt demoConfig demoEnv demoWorld { token := some "tok-old" }).2.2.1
    "tok-old" { name := "TokenExpiredError" } rfl (by decide) rfl (by decide)

/-! ## POST /login -/

theorem postLogin_not_found (jwt : Jwt) (bc : Bcrypt) (db : Mongoose) (cfg : Config)
    (env : Env) (w : World) (req : Request)
    (hfind : User.findOne db w req.username = none) :
    postLogin jwt bc db cfg env w req =
      { world := w, response := some { status := 400, body := Body.text "User not found" } } := by
  unfold postLogin
  rw [hfind]

theorem postLogin_wrong_password (jwt : Jwt) (bc : Bcrypt) (db : Mongoose) (cfg : Config)
    (env : Env) (w : World) (req : Request) (userDoc : User) (password : String)
    (hfind : User.findOne db w req.username = some userDoc)
    (hpw : req.password = some password)
    (hcmp : bc.compareSync password userDoc.password = false) :
    postLogin jwt bc db cfg env w req =
      { world := w,
        response := some { status := 400, body := Body.text "Incorrect password" } } := by
  unfold postLogin
  rw [hfind]
  simp [hpw, hcmp]

/-- C9: for every `POST /login` that names a username, if a stored user holds that username
and the request carries a password that the comparison with the stored hash (the hash of the
first stored user of that name) rejects, the response is status 400 with body
`Incorrect password`; if no stored user holds that username the response is status 400 with
body `User not found`; the two bodies differ, the two status codes are the same, and in
neither case is a cookie set or a store changed. -/
theorem postLogin_failures (jwt : Jwt) (bc : Bcrypt) (db : Mongoose) (cfg : Config) (env : Env)
    (w : World) (req : Request) (name : String) (hname : req.username = some name) :
    ((∃ u ∈ w.users, u.username = name) →
      ∃ userDoc, User.findOne db w req.username = some userDoc ∧
        userDoc ∈ w.users ∧ userDoc.username = name ∧
        ∀ password, req.password = some password →
          bc.compareSync password userDoc.password = false →
          postLogin jwt bc db cfg env w req =
            { world := w,
              response := some { status := 400, body := Body.text "Incorrect password",
                                 cookie := none } }) ∧
    ((∀ u ∈ w.users, u.username ≠ name) →
      postLogin jwt bc db cfg env w req =
        { world := w,
          response := some { status := 400, body := Body.text "User not found",
                             cookie := none } }) ∧
    Body.text "Incorrect password" ≠ Body.text "User not found" := by
  refine ⟨?_, ?_, by decide⟩
  · intro hexists
    obtain ⟨userDoc, hfind⟩ := findOne_of_mem db w name hexists
    obtain ⟨hmem, huser⟩ := findOne_some db w name userDoc hfind
    rw [hname]
    refine ⟨userDoc, hfind, hmem, huser, ?_⟩
    intro password hpw hcmp
    exact postLogin_wrong_password jwt bc db cfg env w req userDoc password
      (by rw [hname]; exact hfind) hpw hcmp
  · intro hnone
    exact postLogin_not_found jwt bc db cfg env w req
      (by rw [hname]; exact findOne_eq_none db w name hnone)

/-- Witness of C9: a login as alice with a wrong password, in a state where alice is
registered and dave is not. -/
theorem postLogin_failures_witness :
    ((∃ u ∈ demoWorld.users, u.username = "alice") →
      ∃ userDoc, User.findOne demoDb demoWorld aliceWrong.username = some userDoc ∧
        userDoc ∈ demoWorld.users ∧ userDoc.username = "alice" ∧
        ∀ password, aliceWrong.password = some password →
          demoBcrypt.compareSync password userDoc.password = false →
          postLogin demoJwt demoBcrypt demoDb demoConfig demoEnv demoWorld aliceWrong =
            { world := demoWorld,
              response := some { status := 400, body := Body.text "Incorrect password",
                                 cookie := none } }) ∧
    ((∀ u ∈ demoWorld.users, u.username ≠ "alice") →
      postLogin demoJwt demoBcrypt demoDb demoConfig demoEnv demoWorld aliceWrong =
        { world := demoWorld,
          response := some { status := 400, body := Body.text "User not found",
                             cookie := none } }) ∧
    Body.text "Incorrect password" ≠ Body.text "User not found" :=
  postLogin_failures demoJwt demoBcrypt demoDb demoConfig demoEnv demoWorld aliceWrong
    "alice" rfl

/-! ## PUT /post by somebody who is not the author -/

/-- C1: for every `PUT /post` request whose token verifies to claims with id `idB` and whose
body id names an existing post with stored author different from `idB`, the response is status
400 with body `You are not the author`, whatever title, summary, content and file the request
carries, and no post of the Content Store is modified. -/
theorem putPost_not_author (jwt : Jwt) (db : Mongoose) (cfg : Config) (env : Env) (w : World)
    (req : Request) (t : String) (info : Payload) (postDoc : Post) (idB : Id)
    (htok : req.token = some t)
    (hver : jwt.verify t cfg.secret env.now = Except.ok info)
    (hid : info.get "id" = some (JsVal.str idB))
    (hpost : Post.findById w req.id = some postDoc)
    (hne : postDoc.author ≠ idB) :
    (putPost jwt db cfg env w req).response =
      some { status := 400, body := Body.text "You are not the author" } ∧
    (putPost jwt db cfg env w req).world.posts = w.posts ∧
    (putPost jwt db cfg env w req).world.users = w.users := by
  have hq : quoteJSONString postDoc.author ≠ quoteJSONString idB :=
    fun h => hne (quoteJSONString_inj _ _ h)
  unfold putPost
  simp only [verifyCookie, htok, hver, findById_putRename, hpost, hid, jsonStringify]
  simp [hq, putRename_posts, putRename_users]

/-- Witness of C1: bob (token `tok-bob`) tries to update the post of alice, with a new title
and an uploaded file. -/
theorem putPost_not_author_witness :
    (putPost demoJwt demoDb demoConfig demoEnv demoWorld bobEdit).response =
      some { status := 400, body := Body.text "You are not the author" } ∧
    (putPost demoJwt demoDb demoConfig demoEnv demoWorld bobEdit).world.posts =
      demoWorld.posts ∧
    (putPost demoJwt demoDb demoConfig demoEnv demoWorld bobEdit).world.users =
      demoWorld.users :=
  putPost_not_author demoJwt demoDb demoConfig demoEnv demoWorld bobEdit
    "tok-bob" (stampedPayload "bob" "b2" 1000) alicePost "b2"
    rfl rfl (by decide) (by decide) (by decide)

/-! ## POST /post: who becomes the author -/

theorem postPost_cases (jwt : Jwt) (cfg : Config) (env : Env) (w : World) (req : Request) :
    ((postPost jwt cfg env w req).world.posts = w.posts ∧
      ∀ postDoc, (postPost jwt cfg env w req).response ≠
        some { status := 200, body := Body.postDoc postDoc }) ∨
    (∃ file t info a,
      req.file = some file ∧ file.originalname ≠ "" ∧
      req.token = some t ∧ jwt.verify t cfg.secret env.now = Except.ok info ∧
      info.get "id" = some (JsVal.str a) ∧ env.writeOk = true ∧
      (postPost jwt cfg env w req).world.posts =
        w.posts ++ [Post.mk env.freshId req.title req.summary req.content
          (some (renamedPath file)) a env.now] ∧
      (postPost jwt cfg env w req).world.users = w.users ∧
      (postPost jwt cfg env w req).response =
        some { status := 200, body := Body.postDoc (Post.mk env.freshId req.title req.summary
          req.content (some (renamedPath file)) a env.now) }) := by
  unfold postPost
  rcases hfile : req.file with _ | file
  · left; simp [fileMissing]
  · by_cases hname : file.originalname = ""
    · left; simp [hname, fileMissing]
    · rcases htok : req.token with _ | t
      · left; simp [hname, verifyCookie, renameSync]
      · rcases hver : jwt.verify t cfg.secret env.now with err | info
        · left; simp [hname, verifyCookie, hver, renameSync]
        · rcases hid : info.get "id" with _ | v
          · left; simp [hname, verifyCookie, hver, hid, Post.create, renameSync]
          · cases v with
            | num n => left; simp [hname, verifyCookie, hver, hid, Post.create, renameSync]
            | str a =>
              by_cases hw : env.writeOk = true
              · right
                refine ⟨file, t, info, a, rfl, hname, rfl, hver, hid, hw, ?_⟩
                simp [hname, verifyCookie, hver, hid, Post.create, hw, renameSync]
              · left; simp [hname, verifyCookie, hver, hid, Post.create, hw, renameSync]

/-! ## The extension of an uploaded file name -/

theorem splitDot_spec (cs : List Char) :
    ∃ init e, splitDot cs = init ++ [e] ∧ '.' ∉ e ∧
      ((init = [] ∧ cs = e) ∨ (init ≠ [] ∧ ∃ stem, cs = stem ++ '.' :: e)) := by
  induction cs with
  | nil => exact ⟨[], [], rfl, by simp, Or.inl ⟨rfl, rfl⟩⟩
  | cons c cs ih =>
    obtain ⟨init, e, hsplit, hdot, hshape⟩ := ih
    by_cases hc : c = '.'
    · refine ⟨[] :: init, e, ?_, hdot, Or.inr ⟨by simp, ?_⟩⟩
      · simp [splitDot, hc, hsplit]
      · rcases hshape with ⟨_, hcs⟩ | ⟨_, stem, hcs⟩
        · exact ⟨[], by simp [hc, hcs]⟩
        · exact ⟨'.' :: stem, by simp [hc, hcs]⟩
    · cases init with
      | nil =>
        rcases hshape with ⟨_, hcs⟩ | ⟨hne, _⟩
        · refine ⟨[], c :: e, ?_, ?_, Or.inl ⟨rfl, by rw [hcs]⟩⟩
          · simp [splitDot, hc, hsplit]
          · simp [hdot, Ne.symm hc]
        · exact absurd rfl hne
      | cons i0 irest =>
        rcases hshape with ⟨hnil, _⟩ | ⟨_, stem, hcs⟩
        · exact absurd hnil (by simp)
        · refine ⟨(c :: i0) :: irest, e, ?_, hdot, Or.inr ⟨by simp, c :: stem, by simp [hcs]⟩⟩
          simp [splitDot, hc, hsplit]

theorem extension_spec (name : String) :
    '.' ∉ (extension name).data ∧
    (name = extension name ∨ ∃ stem : String, name = stem ++ "." ++ extension name) := by
  obtain ⟨init, e, hsplit, hdot, hshape⟩ := splitDot_spec name.data
  have hext : extension name = String.mk e := by
    unfold extension
    rw [hsplit]
    simp
  rw [hext]
  refine ⟨hdot, ?_⟩
  rcases hshape with ⟨_, hcs⟩ | ⟨_, stem, hcs⟩
  · left; exact String.ext hcs
  · right
    refine ⟨String.mk stem, String.ext ?_⟩
    simp [hcs]


theorem postPost_created (jwt : Jwt) (cfg : Config) (env : Env) (w : World) (req : Request)
    (postDoc : Post)
    (h : (postPost jwt cfg env w req).world.posts = w.posts ++ [postDoc]) :
    ∃ t info, req.token = some t ∧ jwt.verify t cfg.secret env.now = Except.ok info ∧
      info.get "id" = some (JsVal.str postDoc.author) := by
  rcases postPost_cases jwt cfg env w req with ⟨hsame, _⟩ | ⟨file, t, info, a, _, _, htok, hver, hid, _, hposts, _, _⟩
  · rw [hsame] at h
    simp at h
  · rw [hposts] at h
    have hp := List.append_cancel_left h
    simp at hp
    refine ⟨t, info, htok, hver, ?_⟩
    rw [hid, ← hp]

/-- C2: for every `POST /post` request the Content Store is left as it was or grows by exactly
one post; a post is created only if the token of the request verifies, and then the author of
the created post is the id carried in the verified claims; when verification fails no post is
added; and the author does not depend on the request body: two requests with the same token
that both create a post create posts with the same author. -/
theorem postPost_author (jwt : Jwt) (cfg : Config) (env : Env) (w : World) (req : Request) :
    ((postPost jwt cfg env w req).world.posts = w.posts ∨
      ∃ postDoc, (postPost jwt cfg env w req).world.posts = w.posts ++ [postDoc]) ∧
    (∀ postDoc, (postPost jwt cfg env w req).world.posts = w.posts ++ [postDoc] →
      ∃ t info, req.token = some t ∧ jwt.verify t cfg.secret env.now = Except.ok info ∧
        info.get "id" = some (JsVal.str postDoc.author)) ∧
    ((∀ t info, req.token = some t → jwt.verify t cfg.secret env.now ≠ Except.ok info) →
      (postPost jwt cfg env w req).world.posts = w.posts) ∧
    (∀ (req2 : Request) (postDoc postDoc2 : Post), req2.token = req.token →
      (postPost jwt cfg env w req).world.posts = w.posts ++ [postDoc] →
      (postPost jwt cfg env w req2).world.posts = w.posts ++ [postDoc2] →
      postDoc2.author = postDoc.author) := by
  refine ⟨?_, postPost_created jwt cfg env w req, ?_, ?_⟩
  · rcases postPost_cases jwt cfg env w req with ⟨hsame, _⟩ | ⟨_, _, _, _, _, _, _, _, _, _, hposts, _, _⟩
    · exact Or.inl hsame
    · exact Or.inr ⟨_, hposts⟩
  · intro hfail
    rcases postPost_cases jwt cfg env w req with ⟨hsame, _⟩ | ⟨_, t, info, _, _, _, htok, hver, _, _, _, _, _⟩
    · exact hsame
    · exact absurd hver (hfail t info htok)
  · intro req2 postDoc postDoc2 htoken h1 h2
    obtain ⟨t, info, htok, hver, hid⟩ := postPost_created jwt cfg env w req postDoc h1
    obtain ⟨t2, info2, htok2, hver2, hid2⟩ := postPost_created jwt cfg env w req2 postDoc2 h2
    rw [htoken, htok] at htok2
    cases Option.some.inj htok2
    rw [hver] at hver2
    cases hver2
    rw [hid] at hid2
    exact (JsVal.str.inj (Option.some.inj hid2)).symm

/-- Witness of C2: alice (token `tok-alice`) creates a post; the request body tries to name
another author through its `id` field, and the created post is still authored by `a1`. -/
theorem postPost_author_witness :
    ∃ t info, aliceCreate.token = some t ∧
      demoJwt.verify t demoConfig.secret demoEnv.now = Except.ok info ∧
      info.get "id" = some (JsVal.str aliceCreated.author) :=
  (postPost_author demoJwt demoConfig demoEnv demoWorld aliceCreate).2.1 aliceCreated
    (by decide)

/-- C8: for every `POST /post` request with an uploaded file that creates a post (the file
name is not empty and the token verifies), the cover of the created post is the temporary
path of the upload followed by a dot and the extension, where the extension is the last
dot-separated segment of the original file name: it contains no dot and the name is either the
extension itself or some stem, a dot and the extension.  For the file name `img.png` the cover
is the temporary path followed by `.png`. -/
theorem postPost_cover (jwt : Jwt) (cfg : Config) (env : Env) (w : World) (req : Request)
    (file : UploadedFile) (postDoc : Post)
    (hfile : req.file = some file)
    (hcreated : (postPost jwt cfg env w req).response =
      some { status := 200, body := Body.postDoc postDoc }) :
    file.originalname ≠ "" ∧
    (∃ t info, req.token = some t ∧ jwt.verify t cfg.secret env.now = Except.ok info) ∧
    postDoc.cover = some (file.path ++ "." ++ extension file.originalname) ∧
    '.' ∉ (extension file.originalname).data ∧
    (file.originalname = extension file.originalname ∨
      ∃ stem : String, file.originalname = stem ++ "." ++ extension file.originalname) ∧
    (file.originalname = "img.png" → postDoc.cover = some (file.path ++ ".png")) ∧
    (postPost jwt cfg env w req).world.posts = w.posts ++ [postDoc] := by
  rcases postPost_cases jwt cfg env w req with ⟨_, hno⟩ | ⟨file2, t, info, a, hfile2, hname, htok, hver, _, _, hposts, _, hresp⟩
  · exact absurd hcreated (hno postDoc)
  · rw [hfile] at hfile2
    cases Option.some.inj hfile2
    rw [hresp] at hcreated
    have hdoc : Post.mk env.freshId req.title req.summary req.content
        (some (renamedPath file)) a env.now = postDoc := by
      simpa using hcreated
    have hcover : postDoc.cover = some (file.path ++ "." ++ extension file.originalname) := by
      rw [← hdoc]; rfl
    refine ⟨hname, ⟨t, info, htok, hver⟩, hcover, (extension_spec _).1, (extension_spec _).2,
      ?_, ?_⟩
    · intro himg
      rw [hcover, himg]
      have hext : extension "img.png" = "png" := by decide
      rw [hext, String.append_assoc]
      rfl
    · rw [hposts, hdoc]

/-- Witness of C8: alice uploads `img.png`, stored by the middleware as `uploads/t1`; the
cover of the created post is `uploads/t1.png`. -/
theorem postPost_cover_witness :
    ("img.png" : String) ≠ "" ∧
    (∃ t info, aliceCreate.token = some t ∧
      demoJwt.verify t demoConfig.secret demoEnv.now = Except.ok info) ∧
    aliceCreated.cover = some ("uploads/t1" ++ "." ++ extension "img.png") ∧
    '.' ∉ (extension "img.png").data ∧
    ("img.png" = extension "img.png" ∨
      ∃ stem : String, "img.png" = stem ++ "." ++ extension "img.png") ∧
    (("img.png" : String) = "img.png" → aliceCreated.cover = some ("uploads/t1" ++ ".png")) ∧
    (postPost demoJwt demoConfig demoEnv demoWorld aliceCreate).world.posts =
      demoWorld.posts ++ [aliceCreated] :=
  postPost_cover demoJwt demoConfig demoEnv demoWorld aliceCreate
    { originalname := "img.png", path := "uploads/t1" } aliceCreated rfl (by decide)

/-! ## GET /post: the latest twenty posts -/

theorem findSortedLimit_spec (w : World) :
    ((Post.findSortedLimit w) ++ (w.posts.insertionSort newerFirst).drop 20).Perm w.posts ∧
    (Post.findSortedLimit w).length = min w.posts.length 20 ∧
    (Post.findSortedLimit w).Pairwise newerFirst ∧
    (∀ p ∈ Post.findSortedLimit w, ∀ q ∈ (w.posts.insertionSort newerFirst).drop 20,
      newerFirst p q) := by
  have hperm := List.perm_insertionSort newerFirst w.posts
  have hsorted : (w.posts.insertionSort newerFirst).Pairwise newerFirst :=
    List.sorted_insertionSort newerFirst w.posts
  unfold Post.findSortedLimit
  refine ⟨?_, ?_, ?_, ?_⟩
  · rw [List.take_append_drop]; exact hperm
  · rw [List.length_take, hperm.length_eq, Nat.min_comm]
  · exact hsorted.sublist (List.take_sublist _ _)
  · rw [← List.take_append_drop 20 (w.posts.insertionSort newerFirst)] at hsorted
    exact (List.pairwise_append.mp hsorted).2.2

theorem getPost_sample :
    (getPost threePosts).response =
      some { status := 200,
             body := Body.postList
               [populate threePosts { alicePost with id := "p2", createdAt := 300 },
                populate threePosts { alicePost with id := "p3", createdAt := 200, author := "zz" },
                populate threePosts { alicePost with id := "p1", createdAt := 100 }] } ∧
    (populate threePosts { alicePost with id := "p2", createdAt := 300 }).author
      = some ("a1", "alice") ∧
    (populate threePosts { alicePost with id := "p3", createdAt := 200, author := "zz" }).author
      = none := by
  decide

/-- C4: for every state of the Content Store holding N posts, `GET /post` answers status 200
with exactly min(N, 20) posts, ordered by `createdAt` descending; the returned posts together
with the posts left out are exactly the stored posts, and every post left out has a
`createdAt` no later than that of every post returned; for N greater than 20 exactly 20 posts
are returned.  Each returned post is the stored post with its author populated. -/
theorem getPost_latest (w : World) :
    ∃ (listed : List PopulatedPost) (shown rest : List Post),
      (getPost w).response = some { status := 200, body := Body.postList listed } ∧
      (getPost w).world = w ∧
      listed = shown.map (populate w) ∧
      (shown ++ rest).Perm w.posts ∧
      listed.length = min w.posts.length 20 ∧
      listed.Pairwise (fun a b => b.createdAt ≤ a.createdAt) ∧
      (∀ p ∈ listed, ∀ q ∈ rest, q.createdAt ≤ p.createdAt) ∧
      (20 < w.posts.length → listed.length = 20) := by
  obtain ⟨hperm, hlen, hsorted, hcross⟩ := findSortedLimit_spec w
  have hlen2 : ((Post.findSortedLimit w).map (populate w)).length = min w.posts.length 20 := by
    rw [List.length_map, hlen]
  refine ⟨(Post.findSortedLimit w).map (populate w), Post.findSortedLimit w,
    (w.posts.insertionSort newerFirst).drop 20, rfl, rfl, rfl, hperm, hlen2, ?_, ?_, ?_⟩
  · rw [List.pairwise_map]
    exact hsorted
  · intro p hp q hq
    obtain ⟨p0, hp0, rfl⟩ := List.mem_map.mp hp
    exact hcross p0 hp0 q hq
  · intro hmany
    rw [hlen2]
    omega

/-! ## PUT /post by the author -/

theorem updateFirst_split (db : Mongoose) (i : Id) (f : Post → Post) (posts : List Post)
    (old : Post) (h : posts.find? (fun p => some p.id = some i) = some old) :
    ∃ pre suf, posts = pre ++ old :: suf ∧ (∀ p ∈ pre, p.id ≠ i) ∧ old.id = i ∧
      updateFirst (fun p => filterMatches db (some i) p.id) f posts = pre ++ f old :: suf := by
  have hsel : (fun p : Post => filterMatches db (some i) p.id) = (fun p => decide (p.id = i)) :=
    rfl
  rw [hsel]
  induction posts with
  | nil => simp at h
  | cons p ps ih =>
    by_cases hp : p.id = i
    · have hold : p = old := by simpa [List.find?, hp] using h
      subst hold
      exact ⟨[], ps, rfl, by simp, hp, by simp [updateFirst, hp]⟩
    · have hrest : ps.find? (fun p => some p.id = some i) = some old := by
        simpa [List.find?, hp] using h
      obtain ⟨pre, suf, hsplit, hpre, hid, hupd⟩ := ih hrest
      refine ⟨p :: pre, suf, by simp [hsplit], ?_, hid,
        by simp [updateFirst, hp, hupd]⟩
      intro q hq
      rcases List.mem_cons.mp hq with rfl | hq
      · exact hp
      · exact hpre q hq

theorem find_after_update (i : Id) (pre suf : List Post) (new : Post)
    (hpre : ∀ p ∈ pre, p.id ≠ i) (hid : new.id = i) :
    (pre ++ new :: suf).find? (fun p => some p.id = some i) = some new := by
  induction pre with
  | nil => simp [List.find?, hid]
  | cons p ps ih =>
    have hp : p.id ≠ i := hpre p (List.mem_cons_self _ _)
    have hps : ∀ q ∈ ps, q.id ≠ i := fun q hq => hpre q (List.mem_cons_of_mem _ hq)
    simpa [List.find?, hp] using ih hps

theorem putPost_success (jwt : Jwt) (db : Mongoose) (cfg : Config) (env : Env) (w : World)
    (req : Request) (r : Response) (hresp : (putPost jwt db cfg env w req).response = some r)
    (hok : r.status = 200) :
    ∃ (i : Id) (t : String) (info : Payload) (old : Post) (pre suf : List Post),
      req.id = some i ∧ req.token = some t ∧
      jwt.verify t cfg.secret env.now = Except.ok info ∧
      some (quoteJSONString old.author) = jsonStringify (info.get "id") ∧
      Post.findById w req.id = some old ∧
      w.posts = pre ++ old :: suf ∧ (∀ p ∈ pre, p.id ≠ i) ∧ old.id = i ∧
      (putPost jwt db cfg env w req).world.posts =
        pre ++ applySet req.title req.summary req.content
          (coverChoice (putNewPath req) old.cover) old :: suf ∧
      (putPost jwt db cfg env w req).world.users = w.users ∧
      r.body = Body.post (some (applySet req.title req.summary req.content
          (coverChoice (putNewPath req) old.cover) old)) := by
  rcases htok : req.token with _ | t
  · simp [putPost, htok, verifyCookie] at hresp
  rcases hver : jwt.verify t cfg.secret env.now with err | info
  · simp [putPost, htok, verifyCookie, hver] at hresp
  rcases hfind : Post.findById w req.id with _ | old
  · simp only [putPost, htok, verifyCookie, hver, findById_putRename, hfind] at hresp
    have hr := Option.some.inj hresp
    rw [← hr] at hok
    exact absurd hok (by decide)
  rcases hid : req.id with _ | i
  · rw [hid, findById_none] at hfind
    cases hfind
  by_cases hauthor : some (quoteJSONString old.author) = jsonStringify (info.get "id")
  · by_cases hw : env.writeOk = true
    · have hfind2 : w.posts.find? (fun p => some p.id = some i) = some old := by
        rw [hid] at hfind; exact hfind
      obtain ⟨pre, suf, hsplit, hpre, hoid, hupd⟩ :=
        updateFirst_split db i (applySet req.title req.summary req.content
          (coverChoice (putNewPath req) old.cover)) w.posts old hfind2
      have hnew : (applySet req.title req.summary req.content
          (coverChoice (putNewPath req) old.cover) old).id = i := hoid
      have hafter := find_after_update i pre suf _ hpre hnew
      have hput : putPost jwt db cfg env w req =
          Result.mk
            { putRename w req with
              posts := pre ++ applySet req.title req.summary req.content
                (coverChoice (putNewPath req) old.cover) old :: suf }
            (some { status := 200, body := Body.post (some (applySet req.title req.summary
                req.content (coverChoice (putNewPath req) old.cover) old)) }) := by
        unfold putPost
        simp only [htok, verifyCookie, hver, findById_putRename, hfind]
        simp only [hauthor, hid, Post.updateOne, hw, putRename_posts, hupd, Post.findById,
          hafter]
        simp
        exact Or.inr ⟨fun x hx => hpre x hx, Or.inl hnew⟩
      rw [hput] at hresp ⊢
      refine ⟨i, t, info, old, pre, suf, rfl, rfl, hver, hauthor, rfl, hsplit, hpre, hoid,
        rfl, putRename_users w req, ?_⟩
      rw [← Option.some.inj hresp]
    · have hput : (putPost jwt db cfg env w req).response = none := by
        unfold putPost
        simp only [htok, verifyCookie, hver, findById_putRename, hfind]
        simp [hauthor, Post.updateOne, hw]
      rw [hput] at hresp
      cases hresp
  · have hput : (putPost jwt db cfg env w req).response =
        some { status := 400, body := Body.text "You are not the author" } := by
      unfold putPost
      simp only [htok, verifyCookie, hver, findById_putRename, hfind]
      simp [hauthor]
    rw [hput] at hresp
    rw [← Option.some.inj hresp] at hok
    exact absurd hok (by decide)

theorem renamedPath_ne_empty (file : UploadedFile) : renamedPath file ≠ "" := by
  intro h
  have hdata := congrArg String.data h
  simp [renamedPath, String.data_append] at hdata

theorem setField_self (stored : Option String) : setField stored stored = stored := by
  cases stored <;> rfl

theorem putPost_new_cover (req : Request) (old : Post) :
    (req.file = none →
      (applySet req.title req.summary req.content (coverChoice (putNewPath req) old.cover)
        old).cover = old.cover) ∧
    (∀ file, req.file = some file →
      (applySet req.title req.summary req.content (coverChoice (putNewPath req) old.cover)
        old).cover = some (file.path ++ "." ++ extension file.originalname)) := by
  constructor
  · intro hfile
    simp [applySet, putNewPath, hfile, coverChoice, setField_self]
  · intro file hfile
    have hne := renamedPath_ne_empty file
    simp [applySet, putNewPath, hfile, coverChoice, hne, setField]
    rfl

/-- C5: for every successful `PUT /post` (status 200, which only the author of the post
obtains) that carries no uploaded file, the cover of the post after the update equals its
cover before the update; when a file is uploaded the cover becomes the renamed upload path
(temporary path, a dot, the extension); so the cover changes only when a file is uploaded. -/
theorem putPost_cover (jwt : Jwt) (db : Mongoose) (cfg : Config) (env : Env) (w : World)
    (req : Request) (r : Response) (hresp : (putPost jwt db cfg env w req).response = some r)
    (hok : r.status = 200) :
    ∃ old new : Post,
      Post.findById w req.id = some old ∧
      Post.findById (putPost jwt db cfg env w req).world req.id = some new ∧
      r.body = Body.post (some new) ∧
      (req.file = none → new.cover = old.cover) ∧
      (∀ file, req.file = some file →
        new.cover = some (file.path ++ "." ++ extension file.originalname)) ∧
      (new.cover ≠ old.cover → ∃ file, req.file = some file) := by
  obtain ⟨i, t, info, old, pre, suf, hid, _, _, _, hfind, _, hpre, hoid, hposts, _, hbody⟩ :=
    putPost_success jwt db cfg env w req r hresp hok
  obtain ⟨hkeep, hset⟩ := putPost_new_cover req old
  refine ⟨old, _, hfind, ?_, hbody, hkeep, hset, ?_⟩
  · unfold Post.findById
    rw [hposts, hid]
    exact find_after_update i pre suf _ hpre hoid
  · intro hchanged
    rcases hfile : req.file with _ | file
    · exact absurd (hkeep hfile) hchanged
    · exact ⟨file, rfl⟩

/-- Witness of C5: alice changes the title of her post and uploads no file; the cover stays
`uploads/f1.png`. -/
theorem putPost_cover_witness :
    ∃ old new : Post,
      Post.findById demoWorld aliceEdit.id = some old ∧
      Post.findById (putPost demoJwt demoDb demoConfig demoEnv demoWorld aliceEdit).world
        aliceEdit.id = some new ∧
      Body.post (some aliceEdited) = Body.post (some new) ∧
      (aliceEdit.file = none → new.cover = old.cover) ∧
      (∀ file, aliceEdit.file = some file →
        new.cover = some (file.path ++ "." ++ extension file.originalname)) ∧
      (new.cover ≠ old.cover → ∃ file, aliceEdit.file = some file) :=
  putPost_cover demoJwt demoDb demoConfig demoEnv demoWorld aliceEdit
    { status := 200, body := Body.post (some aliceEdited) } (by decide) rfl

/-- C6: for every successful `PUT /post` only the supplied fields are replaced: the stored
posts before and after the update differ in one position only, the post the request names;
there a title, summary or content that the request omits keeps its stored value and one that
the request supplies takes the supplied value, while the id, the author and `createdAt` of the
post are unchanged; every other post and every user is unchanged. -/
theorem putPost_frame (jwt : Jwt) (db : Mongoose) (cfg : Config) (env : Env) (w : World)
    (req : Request) (r : Response) (hresp : (putPost jwt db cfg env w req).response = some r)
    (hok : r.status = 200) :
    ∃ (old new : Post) (pre suf : List Post),
      w.posts = pre ++ old :: suf ∧
      (putPost jwt db cfg env w req).world.posts = pre ++ new :: suf ∧
      (∀ p ∈ pre, some p.id ≠ req.id) ∧ some old.id = req.id ∧
      r.body = Body.post (some new) ∧
      new.id = old.id ∧ new.author = old.author ∧ new.createdAt = old.createdAt ∧
      (req.title = none → new.title = old.title) ∧
      (∀ v, req.title = some v → new.title = some v) ∧
      (req.summary = none → new.summary = old.summary) ∧
      (∀ v, req.summary = some v → new.summary = some v) ∧
      (req.content = none → new.content = old.content) ∧
      (∀ v, req.content = some v → new.content = some v) ∧
      (putPost jwt db cfg env w req).world.users = w.users := by
  obtain ⟨i, t, info, old, pre, suf, hid, _, _, _, _, hsplit, hpre, hoid, hposts, husers,
    hbody⟩ := putPost_success jwt db cfg env w req r hresp hok
  refine ⟨old, _, pre, suf, hsplit, hposts, ?_, ?_, hbody, rfl, rfl, rfl,
    ?_, ?_, ?_, ?_, ?_, ?_, husers⟩
  · intro p hp hsame
    rw [hid] at hsame
    exact hpre p hp (Option.some.inj hsame)
  · rw [hid, hoid]
  · intro h; simp [applySet, setField, h]
  · intro v h; simp [applySet, setField, h]
  · intro h; simp [applySet, setField, h]
  · intro v h; simp [applySet, setField, h]
  · intro h; simp [applySet, setField, h]
  · intro v h; simp [applySet, setField, h]

/-- Witness of C6: alice replaces the title of her post and omits summary and content. -/
theorem putPost_frame_witness :
    ∃ (old new : Post) (pre suf : List Post),
      demoWorld.posts = pre ++ old :: suf ∧
      (putPost demoJwt demoDb demoConfig demoEnv demoWorld aliceEdit).world.posts
        = pre ++ new :: suf ∧
      (∀ p ∈ pre, some p.id ≠ aliceEdit.id) ∧ some old.id = aliceEdit.id ∧
      Body.post (some aliceEdited) = Body.post (some new) ∧
      new.id = old.id ∧ new.author = old.author ∧ new.createdAt = old.createdAt ∧
      (aliceEdit.title = none → new.title = old.title) ∧
      (∀ v, aliceEdit.title = some v → new.title = some v) ∧
      (aliceEdit.summary = none → new.summary = old.summary) ∧
      (∀ v, aliceEdit.summary = some v → new.summary = some v) ∧
      (aliceEdit.content = none → new.content = old.content) ∧
      (∀ v, aliceEdit.content = some v → new.content = some v) ∧
      (putPost demoJwt demoDb demoConfig demoEnv demoWorld aliceEdit).world.users
        = demoWorld.users :=
  putPost_frame demoJwt demoDb demoConfig demoEnv demoWorld aliceEdit
    { status := 200, body := Body.post (some aliceEdited) } (by decide) rfl

/-! ## The library stand-ins meet the contracts -/

theorem demoJwt_contract : JwtContract demoJwt := by
  intro username id secret now later token hsign
  simp only [demoJwt] at hsign
  split_ifs at hsign with hcond
  obtain ⟨hpayload, hsecret, hnow⟩ := hcond
  have htoken : token = "tok-alice" := by
    injection hsign with h; exact h.symm
  simp only [loginPayload, signedPayload, List.cons.injEq, Prod.mk.injEq, JsVal.str.injEq,
    true_and, and_true] at hpayload
  obtain ⟨huser, hid⟩ := hpayload
  subst htoken hsecret hnow huser hid
  exact ⟨by decide, rfl⟩

theorem demoBcrypt_contract (salt : String) : BcryptContract demoBcrypt salt := by
  intro password
  refine ⟨by simp [demoBcrypt], ?_⟩
  intro h
  have hlen := congrArg String.length h
  simp only [demoBcrypt, String.length_append] at hlen
  have h4 : ("$2a$" : String).length = 4 := by decide
  omega

/-! ## POST /login followed by GET /profile -/

theorem postLogin_success (jwt : Jwt) (bc : Bcrypt) (db : Mongoose) (cfg : Config) (env : Env)
    (w : World) (req : Request) (r : Response) (token : String)
    (hlogin : (postLogin jwt bc db cfg env w req).response = some r)
    (hcookie : r.cookie = some token) :
    ∃ userDoc password, User.findOne db w req.username = some userDoc ∧
      req.password = some password ∧
      bc.compareSync password userDoc.password = true ∧
      jwt.sign (signedPayload req.username userDoc.id) cfg.secret env.now = Except.ok token ∧
      r = { status := 200, body := Body.loginInfo userDoc.id req.username,
            cookie := some token } := by
  rcases hfind : User.findOne db w req.username with _ | userDoc
  · rw [postLogin_not_found jwt bc db cfg env w req hfind] at hlogin
    rw [← Option.some.inj hlogin] at hcookie
    cases hcookie
  · rcases hpw : req.password with _ | password
    · simp only [postLogin, hfind, hpw] at hlogin
      rw [← Option.some.inj hlogin] at hcookie
      cases hcookie
    · by_cases hcmp : bc.compareSync password userDoc.password = true
      · rcases hsign : jwt.sign (signedPayload req.username userDoc.id) cfg.secret env.now
          with err | tok
        · simp [postLogin, hfind, hpw, hcmp, hsign] at hlogin
        · simp only [postLogin, hfind, hpw, hcmp, if_true, hsign] at hlogin
          have hr := (Option.some.inj hlogin).symm
          rw [hr] at hcookie
          have htok : tok = token := Option.some.inj hcookie
          subst htok
          exact ⟨userDoc, password, rfl, rfl, hcmp, hsign, hr⟩
      · rw [postLogin_wrong_password jwt bc db cfg env w req userDoc password hfind hpw
          (by simpa using hcmp)] at hlogin
        rw [← Option.some.inj hlogin] at hcookie
        cases hcookie

/-- C3 (amended): for every token issued by a successful login that names a username,
presenting that token to `GET /profile`, at any later time, yields status 200 and a body
holding the same username and the same id as the login response, followed by the issued-at
claim `iat` that the signer stamped on the payload (the time of the login); the body is the
signed pair with `iat` appended, not exactly the pair. -/
theorem login_then_profile (jwt : Jwt) (bc : Bcrypt) (db : Mongoose) (cfg : Config) (env : Env)
    (w : World) (req : Request) (r : Response) (username token : String)
    (env2 : Env) (w2 : World) (req2 : Request)
    (hcontract : JwtContract jwt)
    (hname : req.username = some username)
    (hlogin : (postLogin jwt bc db cfg env w req).response = some r)
    (hcookie : r.cookie = some token)
    (hpresent : req2.token = some token) :
    ∃ userDoc, userDoc ∈ w.users ∧ userDoc.username = username ∧
      r.status = 200 ∧ r.body = Body.loginInfo userDoc.id (some username) ∧
      (getProfile jwt cfg env2 w2 req2).response =
        some { status := 200,
               body := Body.claims (stampedPayload username userDoc.id env.now) } ∧
      stampedPayload username userDoc.id env.now =
        loginPayload username userDoc.id ++ [("iat", JsVal.num (Int.ofNat env.now))] := by
  obtain ⟨userDoc, password, hfind, _, _, hsign, hr⟩ :=
    postLogin_success jwt bc db cfg env w req r token hlogin hcookie
  rw [hname] at hfind hsign hr
  obtain ⟨hmem, huser⟩ := findOne_some db w username userDoc hfind
  obtain ⟨hne, hverify⟩ := hcontract username userDoc.id cfg.secret env.now env2.now
    token hsign
  refine ⟨userDoc, hmem, huser, by rw [hr], by rw [hr], ?_, rfl⟩
  unfold getProfile
  simp [hpresent, hne, hverify]

/-- Witness of C3 (amended): alice logs in and presents the issued token. -/
theorem login_then_profile_witness :
    ∃ userDoc, userDoc ∈ demoWorld.users ∧ userDoc.username = "alice" ∧
      (200 : Nat) = 200 ∧
      Body.loginInfo "a1" (some "alice") = Body.loginInfo userDoc.id (some "alice") ∧
      (getProfile demoJwt demoConfig demoEnv demoWorld aliceProfile).response =
        some { status := 200,
               body := Body.claims (stampedPayload "alice" userDoc.id demoEnv.now) } ∧
      stampedPayload "alice" userDoc.id demoEnv.now =
        loginPayload "alice" userDoc.id ++ [("iat", JsVal.num (Int.ofNat demoEnv.now))] :=
  login_then_profile demoJwt demoBcrypt demoDb demoConfig demoEnv demoWorld aliceLogin
    { status := 200, body := Body.loginInfo "a1" (some "alice"), cookie := some "tok-alice" }
    "alice" "tok-alice" demoEnv demoWorld aliceProfile demoJwt_contract rfl (by decide) rfl rfl

/-- Counterexample to C3 as stated: alice logs in successfully and presents the issued token
to `GET /profile`; the body is the pair followed by `iat`, not exactly the pair. -/
theorem login_then_profile_not_pair :
    (postLogin demoJwt demoBcrypt demoDb demoConfig demoEnv demoWorld aliceLogin).response =
      some { status := 200, body := Body.loginInfo "a1" (some "alice"),
             cookie := some "tok-alice" } ∧
    (getProfile demoJwt demoConfig demoEnv demoWorld aliceProfile).response =
      some { status := 200, body := Body.claims (stampedPayload "alice" "a1" 1000) } ∧
    stampedPayload "alice" "a1" 1000 =
      [("username", JsVal.str "alice"), ("id", JsVal.str "a1"), ("iat", JsVal.num 1000)] ∧
    (getProfile demoJwt demoConfig demoEnv demoWorld aliceProfile).response ≠
      some { status := 200, body := Body.claims (loginPayload "alice" "a1") } ∧
    loginPayload "alice" "a1" = [("username", JsVal.str "alice"), ("id", JsVal.str "a1")] := by
  decide

/-! ## POST /register -/

theorem postRegister_success (bc : Bcrypt) (cfg : Config) (env : Env) (w : World)
    (req : Request) (r : Response)
    (hresp : (postRegister bc cfg env w req).response = some r) (hok : r.status = 200) :
    ∃ username password,
      req.username = some username ∧ req.password = some password ∧
      username ≠ "" ∧ password ≠ "" ∧
      postRegister bc cfg env w req =
        Result.mk
          { w with users := w.users ++
              [User.mk env.freshId username (bc.hashSync password cfg.salt)] }
          (some (Response.mk 200
            (Body.userDoc (User.mk env.freshId username (bc.hashSync password cfg.salt)))
            none)) := by
  have hfail : registerFailed.status ≠ 200 := by decide
  unfold postRegister at hresp ⊢
  rcases hu : req.username with _ | username
  · simp only [hu] at hresp
    rw [← Option.some.inj hresp] at hok
    exact absurd hok hfail
  rcases hp : req.password with _ | password
  · simp only [hu, hp] at hresp
    rw [← Option.some.inj hresp] at hok
    exact absurd hok hfail
  simp only [hu, hp] at hresp
  by_cases hempty : username = "" ∨ password = ""
  · rw [if_pos hempty] at hresp
    rw [← Option.some.inj hresp] at hok
    exact absurd hok hfail
  · rw [if_neg hempty] at hresp
    by_cases hw : env.writeOk = true
    · refine ⟨username, password, rfl, rfl, fun h => hempty (Or.inl h),
        fun h => hempty (Or.inr h), ?_⟩
      simp [hempty, User.create, hw]
    · simp only [User.create, hw] at hresp
      simp at hresp
      rw [← hresp] at hok
      exact absurd hok hfail

theorem findOne_appended (db : Mongoose) (w : World) (userDoc : User)
    (hfresh : ∀ u ∈ w.users, u.username ≠ userDoc.username) :
    User.findOne db { w with users := w.users ++ [userDoc] } (some userDoc.username)
      = some userDoc := by
  unfold User.findOne
  simp [List.find?_append, filterMatches]
  exact Or.inr hfresh

/-- C7 (amended): for every `POST /register` that succeeds (status 200), the username and the
password are not empty, exactly one credential is appended to the Credential Store and the
Content Store is untouched; the password field of the stored credential is
`hashSync(password, salt)`, which (by the contract of the hashing library) verifies against
the original password and is not the plaintext password, so the plaintext is not persisted.
When no earlier stored user holds the same username, a following login with the same username
and password finds the new credential and passes the password comparison: it is answered
with status 200 and the token cookie as soon as signing succeeds, never with
`Incorrect password` or `User not found`. -/
theorem postRegister_hash (bc : Bcrypt) (db : Mongoose) (cfg : Config) (env : Env) (w : World)
    (req : Request) (r : Response) (hcontract : BcryptContract bc cfg.salt)
    (hresp : (postRegister bc cfg env w req).response = some r) (hok : r.status = 200) :
    ∃ (username password : String) (userDoc : User),
      req.username = some username ∧ req.password = some password ∧
      username ≠ "" ∧ password ≠ "" ∧
      userDoc = User.mk env.freshId username (bc.hashSync password cfg.salt) ∧
      (postRegister bc cfg env w req).world.users = w.users ++ [userDoc] ∧
      (postRegister bc cfg env w req).world.posts = w.posts ∧
      r.body = Body.userDoc userDoc ∧
      bc.compareSync password userDoc.password = true ∧
      userDoc.password ≠ password ∧
      ((∀ u ∈ w.users, u.username ≠ username) →
        ∀ (jwt : Jwt) (env2 : Env),
          User.findOne db (postRegister bc cfg env w req).world req.username = some userDoc ∧
          (∀ err, jwt.sign (loginPayload username userDoc.id) cfg.secret env2.now
              = Except.error err →
            (postLogin jwt bc db cfg env2 (postRegister bc cfg env w req).world req).response
              = none) ∧
          (∀ token, jwt.sign (loginPayload username userDoc.id) cfg.secret env2.now
              = Except.ok token →
            (postLogin jwt bc db cfg env2 (postRegister bc cfg env w req).world req).response
              = some { status := 200, body := Body.loginInfo userDoc.id (some username),
                       cookie := some token })) := by
  obtain ⟨username, password, hu, hp, hune, hpne, hreg⟩ :=
    postRegister_success bc cfg env w req r hresp hok
  obtain ⟨hcmp, hneq⟩ := hcontract password
  rw [hreg] at hresp
  refine ⟨username, password, _, hu, hp, hune, hpne, rfl, by rw [hreg], by rw [hreg],
    by rw [← Option.some.inj hresp], hcmp, hneq, ?_⟩
  intro hfresh jwt env2
  have hfind : User.findOne db
      { w with users := w.users ++
          [User.mk env.freshId username (bc.hashSync password cfg.salt)] }
      (some username) = some (User.mk env.freshId username (bc.hashSync password cfg.salt)) :=
    findOne_appended db w (User.mk env.freshId username (bc.hashSync password cfg.salt)) hfresh
  rw [hreg]
  refine ⟨by rw [hu]; exact hfind, ?_, ?_⟩
  · intro err hsign
    unfold postLogin
    simp only [loginPayload] at hsign
    simp only [hu, hfind, hp, hcmp, if_true, hsign]
  · intro token hsign
    unfold postLogin
    simp only [loginPayload] at hsign
    simp only [hu, hfind, hp, hcmp, if_true, hsign]

/-- Witness of C7 (amended): carol registers; no stored user is called carol. -/
theorem postRegister_hash_witness :
    ∃ (username password : String) (userDoc : User),
      carolRegister.username = some username ∧ carolRegister.password = some password ∧
      username ≠ "" ∧ password ≠ "" ∧
      userDoc = User.mk "n9" username (demoBcrypt.hashSync password demoConfig.salt) ∧
      (postRegister demoBcrypt demoConfig demoEnv demoWorld carolRegister).world.users
        = demoWorld.users ++ [userDoc] ∧
      (postRegister demoBcrypt demoConfig demoEnv demoWorld carolRegister).world.posts
        = demoWorld.posts ∧
      Body.userDoc (User.mk "n9" "carol" "$2a$pw3") = Body.userDoc userDoc ∧
      demoBcrypt.compareSync password userDoc.password = true ∧
      userDoc.password ≠ password ∧
      ((∀ u ∈ demoWorld.users, u.username ≠ username) →
        ∀ (jwt : Jwt) (env2 : Env),
          User.findOne demoDb (postRegister demoBcrypt demoConfig demoEnv demoWorld carolRegister).world
            carolRegister.username = some userDoc ∧
          (∀ err, jwt.sign (loginPayload username userDoc.id) demoConfig.secret env2.now
              = Except.error err →
            (postLogin jwt demoBcrypt demoDb demoConfig env2
              (postRegister demoBcrypt demoConfig demoEnv demoWorld carolRegister).world
              carolRegister).response = none) ∧
          (∀ token, jwt.sign (loginPayload username userDoc.id) demoConfig.secret env2.now
              = Except.ok token →
            (postLogin jwt demoBcrypt demoDb demoConfig env2
              (postRegister demoBcrypt demoConfig demoEnv demoWorld carolRegister).world
              carolRegister).response
              = some { status := 200, body := Body.loginInfo userDoc.id (some username),
                       cookie := some token })) :=
  postRegister_hash demoBcrypt demoDb demoConfig demoEnv demoWorld carolRegister
    { status := 200, body := Body.userDoc (User.mk "n9" "carol" "$2a$pw3") }
    (demoBcrypt_contract demoConfig.salt) (by decide) rfl

/-- Counterexample to C7 as stated: the username alice is already stored with the hash of
`pw1`.  Registering alice again with `pw3` succeeds and stores a hash that verifies against
`pw3`, yet the following login with alice and `pw3` is compared with the first credential of
that name and is answered `Incorrect password`. -/
theorem register_then_login_rejected :
    (postRegister demoBcrypt demoConfig demoEnv demoWorld aliceAgain).response =
      some { status := 200, body := Body.userDoc (User.mk "n9" "alice" "$2a$pw3") } ∧
    (postRegister demoBcrypt demoConfig demoEnv demoWorld aliceAgain).world.users =
      [alice, bob, User.mk "n9" "alice" "$2a$pw3"] ∧
    demoBcrypt.compareSync "pw3" "$2a$pw3" = true ∧
    (postLogin demoJwt demoBcrypt demoDb demoConfig demoEnv
      (postRegister demoBcrypt demoConfig demoEnv demoWorld aliceAgain).world
      aliceAgain).response =
      some { status := 400, body := Body.text "Incorrect password" } := by
  decide

end Marchapi
